import Mathlib

/-!
Shallow embedding of the request-lifecycle backend (`src/backend/app`) of the
confluent-clerk repository, together with proofs about the claims of its
specification.

Conventions of the embedding:
* UUIDs are modelled as `Nat` drawn from a per-database counter (`DB.nextId`).
* JSON detail payloads are modelled by the `Details` structure: one `Option`
  field per key the backend ever reads (`topic_name`, `partitions`,
  `replication_factor`, `description`, `principal`, `operation`,
  `resource_type`, `resource_name`, `host_pattern`).  A `none` field is a
  missing key.
* Python truthiness on a string-valued key (`if not topic_name`,
  `all([principal, ...])`) is the `truthy` predicate: present and non-empty.
* Timestamps are abstract `Nat` values supplied by the caller where the code
  calls `datetime.utcnow()`; columns without any writer stay `Option Nat`.
* The external Kafka admin client is an oracle: the outcome dictionary
  (`{"success": ..., "error": ...}`) that `kafka_service.create_topic` /
  `create_acl` would return is a `KafkaResult` parameter of the route.
* The external LDAP directory is an oracle `DirectoryBehavior` describing
  whether the bind attempt raises, binds, or fails.
* A storage fault during the audit append (`AuditService.log_action`'s
  commit) is modelled by the Boolean `auditOk` parameter of the submit
  routes.
* `sqlalchemy` commits persist mutations durably; each `db.commit()` in the
  source corresponds to the returned `DB` value incorporating the mutation.
-/

namespace ConfluentClerk

/-- Does `pat` occur as a contiguous run starting at some position of `l`? -/
def containsAux (pat : List Char) : List Char → Bool
  | [] => pat.isEmpty
  | c :: rest => pat.isPrefixOf (c :: rest) || containsAux pat rest

/-- `pat in s` on Python strings: `pat` occurs as a contiguous substring. -/
def strContains (s pat : String) : Bool :=
  containsAux pat.data s.data

/-- `str.lower()` on the ASCII strings the backend compares (character-wise
lowering, stated over the character list so that it evaluates by kernel
reduction). -/
def strToLower (s : String) : String :=
  String.mk (s.data.map Char.toLower)

/-- Python truthiness of an optional string field: present and non-empty. -/
def truthy : Option String → Bool
  | none => false
  | some s => !(s == "")

/-- `RequestStatus` enum from `app/db/models.py`. -/
inductive RequestStatus
  | PENDING
  | APPROVED
  | REJECTED
  | CANCELLED
  deriving DecidableEq, Repr

/-- `RequestType` enum from `app/db/models.py`. -/
inductive RequestType
  | TOPIC
  | ACL
  deriving DecidableEq, Repr

/-- The JSON `details` payload of a request, restricted to the keys the
backend reads (see `app/schemas/request.py` and `app/api/routes/admin.py`). -/
structure Details where
  topic_name : Option String := none
  partitions : Option Int := none
  replication_factor : Option Int := none
  description : Option String := none
  principal : Option String := none
  operation : Option String := none
  resource_type : Option String := none
  resource_name : Option String := none
  host_pattern : Option String := none
  deriving DecidableEq, Repr

/-- `Request` row from `app/db/models.py` (columns the lifecycle reads or
writes; `created_at` is a server default never consulted by the lifecycle
logic and is omitted). -/
structure Request where
  id : Nat
  user_id : Nat
  request_type : RequestType
  status : RequestStatus
  details : Details
  rationale : Option String
  approved_at : Option Nat
  rejected_at : Option Nat
  admin_user_id : Option Nat
  rejection_reason : Option String
  deriving DecidableEq, Repr

/-- `User` row from `app/db/models.py` (columns the auth flow reads or
writes). -/
structure UserRec where
  id : Nat
  username : String
  email : String
  is_admin : Bool
  is_active : Bool
  last_login : Option Nat
  deriving DecidableEq, Repr

/-- `AuditLog` row from `app/db/models.py` (the `changes` JSON payload and
`timestamp`/`ip_address` are recorded but never read back by the backend;
they are omitted). -/
structure AuditLog where
  user_id : Nat
  action : String
  entity_type : String
  entity_id : Option String
  deriving DecidableEq, Repr

/-- The transactional store: the three tables plus a fresh-id counter
standing in for `uuid4`. -/
structure DB where
  users : List UserRec
  requests : List Request
  audit_logs : List AuditLog
  nextId : Nat
  deriving DecidableEq, Repr

/-- Persist an in-place mutation of a request row (the ORM object updated and
committed). -/
def updateRequest (db : DB) (r : Request) : DB :=
  { db with requests := db.requests.map (fun q => if q.id == r.id then r else q) }

/-- Persist an in-place mutation of a user row. -/
def updateUser (db : DB) (u : UserRec) : DB :=
  { db with users := db.users.map (fun q => if q.id == u.id then u else q) }

/-- `AuditService.log_action` (`app/services/audit_service.py`): append one
immutable audit row and commit. -/
def AuditService.log_action (db : DB) (user_id : Nat) (action entity_type : String)
    (entity_id : Option String) : DB :=
  { db with audit_logs :=
      db.audit_logs ++ [{ user_id := user_id, action := action,
                          entity_type := entity_type, entity_id := entity_id }] }

/-- The payload of `RequestCreate` (`app/schemas/request.py`) before
validation. -/
structure RequestCreateData where
  request_type : RequestType
  details : Details
  rationale : Option String
  deriving DecidableEq, Repr

namespace RequestService

/-- `RequestService.get_request_by_id`. -/
def get_request_by_id (db : DB) (rid : Nat) : Option Request :=
  db.requests.find? (fun r => r.id == rid)

/-- `RequestService.create_request`: persist a new `PENDING` request and
commit. -/
def create_request (db : DB) (userId : Nat) (rc : RequestCreateData) : Request × DB :=
  let r : Request :=
    { id := db.nextId, user_id := userId, request_type := rc.request_type,
      status := .PENDING, details := rc.details, rationale := rc.rationale,
      approved_at := none, rejected_at := none, admin_user_id := none,
      rejection_reason := none }
  (r, { db with requests := db.requests ++ [r], nextId := db.nextId + 1 })

/-- `RequestService.approve_request`: if the request exists and is `PENDING`,
set status `APPROVED` and the deciding admin, commit, and return the row;
otherwise return `None`.  (The source sets no `approved_at` timestamp.) -/
def approve_request (db : DB) (rid adminId : Nat) : Option Request × DB :=
  match get_request_by_id db rid with
  | some r =>
      if r.status = .PENDING then
        let r' := { r with status := .APPROVED, admin_user_id := some adminId }
        (some r', updateRequest db r')
      else (none, db)
  | none => (none, db)

/-- `RequestService.reject_request`: if the request exists and is `PENDING`,
set status `REJECTED`, the deciding admin and the reason, commit, and return
the row; otherwise return `None`.  (The source sets no `rejected_at`
timestamp.) -/
def reject_request (db : DB) (rid adminId : Nat) (reason : String) :
    Option Request × DB :=
  match get_request_by_id db rid with
  | some r =>
      if r.status = .PENDING then
        let r' := { r with status := .REJECTED, admin_user_id := some adminId,
                           rejection_reason := some reason }
        (some r', updateRequest db r')
      else (none, db)
  | none => (none, db)

/-- `RequestService.cancel_request`: owner-only, `PENDING`-only transition to
`CANCELLED`. -/
def cancel_request (db : DB) (rid userId : Nat) : Option Request × DB :=
  match get_request_by_id db rid with
  | some r =>
      if r.user_id == userId ∧ r.status = .PENDING then
        let r' := { r with status := .CANCELLED }
        (some r', updateRequest db r')
      else (none, db)
  | none => (none, db)

end RequestService

/-- Error outcomes of the HTTP routes, by status code and meaning:
`notFound` ↦ 404, `badRequest` ↦ 400 raised inside a handler, `validation` ↦
422 raised by the pydantic layer, `unauthorized` ↦ 401, `upstream` ↦ 500 for
a failed Kafka operation, `storage` ↦ 500 for a failed audit commit. -/
inductive RouteError
  | notFound
  | badRequest (msg : String)
  | validation
  | unauthorized
  | upstream (msg : String)
  | storage
  deriving DecidableEq, Repr

/-- Outcome dictionary returned by `KafkaService.create_topic` /
`create_acl`: the `success` flag and (when `success` is false) the
`error` message. -/
structure KafkaResult where
  success : Bool
  error : String := ""
  deriving DecidableEq, Repr

/-- The inline soft-failure allowlist of `approve_request`
(`app/api/routes/admin.py` lines 158–162): a failed Kafka outcome still
permits approval when its lower-cased error message contains
`"already exists"`, `"acl authorization"`, or `"acl creation failed"`. -/
def softFailureAllowlist (errMsg : String) : Bool :=
  let m := strToLower errMsg
  strContains m "already exists" || strContains m "acl authorization" ||
    strContains m "acl creation failed"

/-- The kind-specific completeness check the approve route performs on the
stored details before calling Kafka (`admin.py` lines 114–154). -/
def detailsComplete (r : Request) : Bool :=
  match r.request_type with
  | .TOPIC => truthy r.details.topic_name
  | .ACL =>
      truthy r.details.principal && truthy r.details.operation &&
        truthy r.details.resource_type && truthy r.details.resource_name

/-- `approve_request` route handler (`app/api/routes/admin.py` lines
91–220).  `kafka` is the outcome the admin client returns for the
provisioning call the handler issues. -/
def approveRoute (db : DB) (kafka : KafkaResult) (adminId rid : Nat) :
    Except RouteError Request × DB :=
  match RequestService.get_request_by_id db rid with
  | none => (.error .notFound, db)
  | some pending =>
    if pending.status ≠ .PENDING then (.error .notFound, db)
    else
      let checked : Except RouteError KafkaResult :=
        match pending.request_type with
        | .TOPIC =>
            if truthy pending.details.topic_name then .ok kafka
            else .error (.badRequest "Topic name is required")
        | .ACL =>
            if truthy pending.details.principal && truthy pending.details.operation &&
               truthy pending.details.resource_type && truthy pending.details.resource_name
            then .ok kafka
            else .error (.badRequest
              "Principal, operation, resource_type, and resource_name are required for ACL")
      match checked with
      | .error e => (.error e, db)
      | .ok kres =>
        if !kres.success && !softFailureAllowlist kres.error then
          (.error (.upstream ("Failed to create resource in Kafka: " ++ kres.error)), db)
        else
          match RequestService.approve_request db rid adminId with
          | (none, db1) => (.error .notFound, db1)
          | (some approved, db1) =>
            let db2 := AuditService.log_action db1 adminId "REQUEST_APPROVED"
              "REQUEST" (some (toString rid))
            (.ok approved, db2)

/-- `reject_request` route handler (`app/api/routes/admin.py` lines
223–288). -/
def rejectRoute (db : DB) (adminId rid : Nat) (reason : Option String) :
    Except RouteError Request × DB :=
  if !truthy reason then
    (.error (.badRequest "Rejection reason is required"), db)
  else
    match RequestService.reject_request db rid adminId (reason.getD "") with
    | (none, db1) => (.error .notFound, db1)
    | (some rejected, db1) =>
        let db2 := AuditService.log_action db1 adminId "REQUEST_REJECTED"
          "REQUEST" (some (toString rid))
        (.ok rejected, db2)

/-- Character class `[a-zA-Z0-9._-]` of the topic-name pattern in
`TopicRequestDetails.validate_topic_name` (`app/schemas/request.py`). -/
def topicNameCharOk (c : Char) : Bool :=
  c.isAlpha || c.isDigit || c == '.' || c == '_' || c == '-'

/-- String values of the `ACLOperation` enum (`app/db/models.py`). -/
def aclOperations : List String :=
  ["READ", "WRITE", "CREATE", "DELETE", "ALTER", "DESCRIBE", "CLUSTER_ACTION", "ALL"]

/-- String values of the `ACLResourceType` enum (`app/db/models.py`). -/
def aclResourceTypes : List String :=
  ["TOPIC", "GROUP", "CLUSTER", "TRANSACTIONAL_ID"]

/-- Field validation of `TopicRequestDetails` (`app/schemas/request.py`):
`topic_name` required, length in `[1,255]`, matching `^[a-zA-Z0-9._-]+$`;
`partitions` required in `[1,100]`; `replication_factor` required in
`[1,3]`; `description` optional with length at most 500. -/
def TopicRequestDetails.valid (d : Details) : Bool :=
  (match d.topic_name with
   | none => false
   | some name =>
       1 ≤ name.length && name.length ≤ 255 && name.data.all topicNameCharOk) &&
  (match d.partitions with
   | none => false
   | some p => 1 ≤ p && p ≤ 100) &&
  (match d.replication_factor with
   | none => false
   | some rf => 1 ≤ rf && rf ≤ 3) &&
  (match d.description with
   | none => true
   | some s => s.length ≤ 500)

/-- Field validation of `ACLRequestDetails` (`app/schemas/request.py`):
`principal` and `resource_name` required non-empty; `operation` and
`resource_type` required members of their enumerations; `host_pattern`
optional (defaults to `"*"`, no constraint). -/
def ACLRequestDetails.valid (d : Details) : Bool :=
  (match d.principal with
   | none => false
   | some p => 1 ≤ p.length) &&
  (match d.operation with
   | none => false
   | some op => aclOperations.contains op) &&
  (match d.resource_type with
   | none => false
   | some rt => aclResourceTypes.contains rt) &&
  (match d.resource_name with
   | none => false
   | some rn => 1 ≤ rn.length)

/-- Validation of `RequestCreate` (`app/schemas/request.py`): `rationale`
is optional with length in `[10,1000]` when present; `details` is validated
against the kind-specific schema. -/
def RequestCreate.valid (rc : RequestCreateData) : Bool :=
  (match rc.rationale with
   | none => true
   | some s => 10 ≤ s.length && s.length ≤ 1000) &&
  (match rc.request_type with
   | .TOPIC => TopicRequestDetails.valid rc.details
   | .ACL => ACLRequestDetails.valid rc.details)

/-- `create_topic_request` route handler (`app/api/routes/requests.py`
lines 20–79), including the pydantic validation that runs before the
handler.  `auditOk` tells whether the commit inside the audit append
succeeds; when it fails the handler's exception guard converts the error to
an HTTP 500 **after** the request row was already committed. -/
def createTopicRequestRoute (db : DB) (auditOk : Bool) (userId : Nat)
    (rc : RequestCreateData) : Except RouteError Request × DB :=
  if !RequestCreate.valid rc then (.error .validation, db)
  else if rc.request_type ≠ .TOPIC then
    (.error (.badRequest "Invalid request type for topic endpoint"), db)
  else
    let (created, db1) := RequestService.create_request db userId rc
    if auditOk then
      (.ok created, AuditService.log_action db1 userId "TOPIC_REQUEST_CREATED"
        "REQUEST" (some (toString created.id)))
    else
      (.error .storage, db1)

/-- `create_acl_request` route handler (`app/api/routes/requests.py`
lines 82–142), modelled exactly like `createTopicRequestRoute`. -/
def createACLRequestRoute (db : DB) (auditOk : Bool) (userId : Nat)
    (rc : RequestCreateData) : Except RouteError Request × DB :=
  if !RequestCreate.valid rc then (.error .validation, db)
  else if rc.request_type ≠ .ACL then
    (.error (.badRequest "Invalid request type for ACL endpoint"), db)
  else
    let (created, db1) := RequestService.create_request db userId rc
    if auditOk then
      (.ok created, AuditService.log_action db1 userId "ACL_REQUEST_CREATED"
        "REQUEST" (some (toString created.id)))
    else
      (.error .storage, db1)

/-- What the directory dictionary returned by
`LDAPAuthService.authenticate` (`app/services/ldap_auth.py`) carries. -/
structure LdapUserInfo where
  username : String
  email : String
  is_admin : Bool
  full_name : Option String
  groups : List String
  deriving DecidableEq, Repr

/-- Behavior of the external LDAP server for one bind attempt. -/
inductive DirectoryBehavior
  | ldapError
  | otherError
  | bound (info : LdapUserInfo)
  | bindFailed
  deriving DecidableEq, Repr

/-- The hardcoded fallback identity `authenticate` fabricates when the
directory is unreachable (`app/services/ldap_auth.py` lines 72–80 and
89–97). -/
def adminFallback (uname : String) : LdapUserInfo :=
  { username := uname, email := uname ++ "@alephys.com", is_admin := true,
    full_name := some "Administrator", groups := [] }

/-- `LDAPAuthService.authenticate` (`app/services/ldap_auth.py` lines
19–98).  `env` is the behavior of the directory server: a successful bind
yields the directory's user dictionary; an exception (LDAP or otherwise)
triggers the hardcoded admin fallback. -/
def LDAPAuthService.authenticate (env : DirectoryBehavior) (uname pw : String) :
    Option LdapUserInfo :=
  if uname == "" || pw == "" then none
  else
    match env with
    | .bound info => some info
    | .bindFailed => none
    | .ldapError =>
        if strToLower uname == "admin" && !(pw == "") then some (adminFallback uname)
        else none
    | .otherError =>
        if strToLower uname == "admin" && !(pw == "") then some (adminFallback uname)
        else none

namespace UserService

/-- `UserService.get_user_by_username`. -/
def get_user_by_username (db : DB) (uname : String) : Option UserRec :=
  db.users.find? (fun u => u.username == uname)

/-- `UserService.create_user`: persist a new active user row. -/
def create_user (db : DB) (uname email : String) (is_admin : Bool) :
    UserRec × DB :=
  let u : UserRec :=
    { id := db.nextId, username := uname, email := email, is_admin := is_admin,
      is_active := true, last_login := none }
  (u, { db with users := db.users ++ [u], nextId := db.nextId + 1 })

end UserService

/-- `login` route handler (`app/api/routes/auth.py` lines 21–119) after the
LDAP call: `ldap_user` is the value `ldap_auth_service.authenticate`
returned, `now` the current time stamped into `last_login`.  On first login
the user row is created and a `USER_CREATED` audit entry appended; on later
logins the admin flag is synchronized from the directory value and a
`USER_ROLE_UPDATED` audit entry is appended exactly when it changed. -/
def login (db : DB) (ldap_user : Option LdapUserInfo) (uname : String)
    (now : Nat) : Except RouteError UserRec × DB :=
  match ldap_user with
  | none => (.error .unauthorized, db)
  | some info =>
    match UserService.get_user_by_username db uname with
    | none =>
        let (u, db1) := UserService.create_user db uname info.email info.is_admin
        let db2 := AuditService.log_action db1 u.id "USER_CREATED" "USER"
          (some (toString u.id))
        (.ok u, db2)
    | some u =>
        if u.is_admin ≠ info.is_admin then
          let u' := { u with last_login := some now, is_admin := info.is_admin }
          let db1 := updateUser db u'
          let db2 := AuditService.log_action db1 u'.id "USER_ROLE_UPDATED" "USER"
            (some (toString u'.id))
          (.ok u', db2)
        else
          let u' := { u with last_login := some now }
          (.ok u', updateUser db u')

/-! ### Spec-side predicates (for refinement claims) and concrete fixtures -/

/-- Bounds check on an optional integer field, used by the spec-side
validation predicate. -/
def withinBounds (lo hi : Int) : Option Int → Bool
  | none => false
  | some v => lo ≤ v && v ≤ hi

/-- The submission validation exactly as claim C7 words it: a TOPIC payload
needs a topic name matching `[a-zA-Z0-9._-]+`, a partition count in
`[1,100]` and a replication factor in `[1,3]`; an ACL payload needs
non-empty principal, operation, resource-type and resource-name (host
pattern defaulting, hence unconstrained); and the rationale length is
within `[10,1000]` characters. -/
def claimedSubmitValidation (rc : RequestCreateData) : Bool :=
  (match rc.request_type with
   | .TOPIC =>
       (match rc.details.topic_name with
        | none => false
        | some name => 1 ≤ name.length && name.data.all topicNameCharOk) &&
       withinBounds 1 100 rc.details.partitions &&
       withinBounds 1 3 rc.details.replication_factor
   | .ACL =>
       truthy rc.details.principal && truthy rc.details.operation &&
       truthy rc.details.resource_type && truthy rc.details.resource_name) &&
  (match rc.rationale with
   | none => false
   | some s => 10 ≤ s.length && s.length ≤ 1000)

/-- The submission validation as amended from the code: additionally the
topic name is capped at 255 characters and an optional description at 500;
the ACL operation and resource type must be members of the fixed
enumerations; the rationale is optional, bounded in `[10,1000]` only when
present. -/
def amendedSubmitValidation (rc : RequestCreateData) : Bool :=
  (rc.rationale.all fun s => 10 ≤ s.length && s.length ≤ 1000) &&
  (match rc.request_type with
   | .TOPIC =>
       (rc.details.topic_name.any fun name =>
         1 ≤ name.length && name.length ≤ 255 && name.data.all topicNameCharOk) &&
       withinBounds 1 100 rc.details.partitions &&
       withinBounds 1 3 rc.details.replication_factor &&
       (rc.details.description.all fun s => s.length ≤ 500)
   | .ACL =>
       (rc.details.principal.any fun p => 1 ≤ p.length) &&
       (rc.details.operation.any fun op => aclOperations.contains op) &&
       (rc.details.resource_type.any fun rt => aclResourceTypes.contains rt) &&
       (rc.details.resource_name.any fun rn => 1 ≤ rn.length))

/-- The request row `create_request` persists for a given submission. -/
def createdRequest (db : DB) (userId : Nat) (rc : RequestCreateData) : Request :=
  (RequestService.create_request db userId rc).1

/-- Fixture: a well-formed topic details payload. -/
def exTopicDetails : Details :=
  { topic_name := some "orders.v1", partitions := some 3, replication_factor := some 2 }

/-- Fixture: a pending TOPIC request with id 1 owned by user 5. -/
def exPendingTopicReq : Request :=
  { id := 1, user_id := 5, request_type := .TOPIC, status := .PENDING,
    details := exTopicDetails, rationale := some "need a topic for order events",
    approved_at := none, rejected_at := none, admin_user_id := none,
    rejection_reason := none }

/-- Fixture: an empty database. -/
def exDB0 : DB := { users := [], requests := [], audit_logs := [], nextId := 1 }

/-- Fixture: a database holding exactly the pending topic request. -/
def exDB1 : DB := { users := [], requests := [exPendingTopicReq], audit_logs := [], nextId := 2 }

/-- Fixture: a valid topic submission payload. -/
def exTopicRC : RequestCreateData :=
  { request_type := .TOPIC, details := exTopicDetails,
    rationale := some "need a topic for order events" }

/-- Fixture: the row the approve route stores for `exPendingTopicReq` when
admin 7 approves it. -/
def exApprovedTopicReq : Request :=
  { exPendingTopicReq with status := .APPROVED, admin_user_id := some 7 }

/-- Fixture: the row the reject route stores for `exPendingTopicReq` when
admin 7 rejects it with a reason. -/
def exRejectedTopicReq : Request :=
  { exPendingTopicReq with
    status := .REJECTED
    admin_user_id := some 7
    rejection_reason := some "capacity limits" }

/-- Fixture: a database whose only request is already `APPROVED`. -/
def exDBApproved : DB :=
  { users := [], requests := [exApprovedTopicReq], audit_logs := [], nextId := 2 }

/-- Fixture: a pending TOPIC request whose stored details payload has no
`topic_name` key. -/
def exNoNameReq : Request :=
  { id := 1, user_id := 5, request_type := .TOPIC, status := .PENDING,
    details := { partitions := some 3, replication_factor := some 2 },
    rationale := some "need a topic for order events",
    approved_at := none, rejected_at := none, admin_user_id := none,
    rejection_reason := none }

/-- Fixture: a database holding exactly the name-less pending topic
request. -/
def exDBNoName : DB :=
  { users := [], requests := [exNoNameReq], audit_logs := [], nextId := 2 }

/-- Fixture: an ACL submission whose operation `"FOO"` is non-empty but not
a member of the `ACLOperation` enumeration. -/
def exBadOpACLRC : RequestCreateData :=
  { request_type := .ACL,
    details := { principal := some "User:alice", operation := some "FOO",
                 resource_type := some "TOPIC", resource_name := some "orders" },
    rationale := some "need access to orders" }

/-- Fixture: a stored non-admin user named bob. -/
def exBob : UserRec :=
  { id := 3, username := "bob", email := "bob@alephys.com", is_admin := false,
    is_active := true, last_login := none }

/-- Fixture: a database holding exactly the user bob. -/
def exDBBob : DB := { users := [exBob], requests := [], audit_logs := [], nextId := 4 }

/-- Fixture: the directory identity for bob after his directory group came
to include the admin group. -/
def exBobDirInfo : LdapUserInfo :=
  { username := "bob", email := "bob@alephys.com", is_admin := true,
    full_name := some "Bob", groups := ["cn=kafka-admins,ou=groups"] }

/-! ### Helper lemmas -/

/-- Updating the request row that `find?` located (keyed by id) makes the
subsequent `find?` return the updated row. -/
theorem find_req_update : ∀ (l : List Request) (rid : Nat) (r r' : Request),
    l.find? (fun q => q.id == rid) = some r → r'.id = r.id →
    (l.map (fun q => if q.id == r'.id then r' else q)).find?
      (fun q => q.id == rid) = some r'
  | [], _, _, _, hfind, _ => by simp at hfind
  | a :: t, rid, r, r', hfind, hid => by
    cases ha : (a.id == rid) with
    | true =>
      have har : a = r := by
        simpa [List.find?, ha] using hfind
      have hcond : (a.id == r'.id) = true := by
        rw [har, hid]; simp
      have hr' : (r'.id == rid) = true := by
        rw [har] at ha
        rw [show r'.id = r.id from hid]; exact ha
      simp only [List.map_cons, hcond, if_true, List.find?, hr']
    | false =>
      simp only [List.find?, ha] at hfind
      have hrid : (r.id == rid) = true :=
        List.find?_some (p := fun (q : Request) => q.id == rid) hfind
      have hcond : (a.id == r'.id) = false := by
        rw [hid]
        cases hc : (a.id == r.id) with
        | true =>
          exfalso
          have hac : a.id = r.id := by simpa using hc
          rw [hac, hrid] at ha
          exact Bool.noConfusion ha
        | false => rfl
      simp only [List.map_cons, hcond, Bool.false_eq_true, if_false, List.find?, ha]
      exact find_req_update t rid r r' hfind hid

/-- Updating (by id) the user row that `find?` located by username makes the
subsequent `find?` return the updated row, provided ids are unique. -/
theorem find_user_update : ∀ (l : List UserRec) (uname : String) (u u' : UserRec),
    l.find? (fun x => x.username == uname) = some u →
    u'.username = u.username → u'.id = u.id →
    (∀ x ∈ l, x.id = u.id → x = u) →
    (l.map (fun x => if x.id == u'.id then u' else x)).find?
      (fun x => x.username == uname) = some u'
  | [], _, _, _, hfind, _, _, _ => by simp at hfind
  | a :: t, uname, u, u', hfind, hname, hid, huniq => by
    cases ha : (a.username == uname) with
    | true =>
      have hau : a = u := by
        simpa [List.find?, ha] using hfind
      have hcond : (a.id == u'.id) = true := by
        rw [hau, hid]; simp
      have hu' : (u'.username == uname) = true := by
        rw [hau] at ha
        rw [show u'.username = u.username from hname]; exact ha
      simp only [List.map_cons, hcond, if_true, List.find?, hu']
    | false =>
      simp only [List.find?, ha] at hfind
      have huname : (u.username == uname) = true :=
        List.find?_some (p := fun (x : UserRec) => x.username == uname) hfind
      have hcond : (a.id == u'.id) = false := by
        rw [hid]
        cases hc : (a.id == u.id) with
        | true =>
          exfalso
          have hau : a = u :=
            huniq a (List.mem_cons_self a t) (by simpa using hc)
          rw [hau, huname] at ha
          exact Bool.noConfusion ha
        | false => rfl
      simp only [List.map_cons, hcond, Bool.false_eq_true, if_false, List.find?, ha]
      exact find_user_update t uname u u'
        hfind hname hid (fun x hx => huniq x (List.mem_cons_of_mem a hx))

/-- Reduction of the approve route on a pending request with complete
details: the route either commits the approval (storing the row with status
`APPROVED` and appending the `REQUEST_APPROVED` audit entry) or returns the
upstream error with the database untouched, according to whether the Kafka
outcome is a success or an allowlisted soft failure. -/
theorem approveRoute_pending_complete (db : DB) (k : KafkaResult)
    (adminId rid : Nat) (r : Request)
    (hfind : RequestService.get_request_by_id db rid = some r)
    (hpend : r.status = .PENDING)
    (hdet : detailsComplete r = true) :
    approveRoute db k adminId rid =
      if k.success || softFailureAllowlist k.error then
        (.ok { r with status := .APPROVED, admin_user_id := some adminId },
         AuditService.log_action
           (updateRequest db { r with status := .APPROVED, admin_user_id := some adminId })
           adminId "REQUEST_APPROVED" "REQUEST" (some (toString rid)))
      else
        (.error (.upstream ("Failed to create resource in Kafka: " ++ k.error)), db) := by
  have happ : RequestService.approve_request db rid adminId =
      (some { r with status := .APPROVED, admin_user_id := some adminId },
        updateRequest db { r with status := .APPROVED, admin_user_id := some adminId }) := by
    unfold RequestService.approve_request
    rw [hfind]
    simp [hpend]
  unfold approveRoute
  rw [hfind]
  cases hk : (k.success || softFailureAllowlist k.error) with
  | false =>
    rw [Bool.or_eq_false_iff] at hk
    cases htype : r.request_type with
    | TOPIC =>
      simp only [detailsComplete, htype] at hdet
      simp [hpend, htype, hdet, hk.1, hk.2]
    | ACL =>
      simp only [detailsComplete, htype, Bool.and_eq_true] at hdet
      obtain ⟨⟨⟨h1, h2⟩, h3⟩, h4⟩ := hdet
      simp [hpend, htype, h1, h2, h3, h4, hk.1, hk.2]
  | true =>
    have hnot : (!k.success && !softFailureAllowlist k.error) = false := by
      rw [← Bool.not_or, hk]
      rfl
    rw [Bool.or_eq_true_iff] at hk
    cases htype : r.request_type with
    | TOPIC =>
      simp only [detailsComplete, htype] at hdet
      rcases hk with hk | hk <;> simp [hpend, htype, hdet, hk, happ]
    | ACL =>
      simp only [detailsComplete, htype, Bool.and_eq_true] at hdet
      obtain ⟨⟨⟨h1, h2⟩, h3⟩, h4⟩ := hdet
      rcases hk with hk | hk <;> simp [hpend, htype, h1, h2, h3, h4, hk, happ]

/-! ### Claim theorems -/

/-- C1: For every PENDING request whose stored details pass the
kind-specific completeness check, the approve decision succeeds exactly when
the provisioning outcome is a hard success or a failure on the soft-failure
allowlist (error message containing "already exists", "acl authorization",
or "acl creation failed" — the recognitions of resource-already-exists and
authorization-unsupported-on-cluster); when it succeeds, the stored request
has status `APPROVED`; any outcome outside this allowlist does not lead to
approval. -/
theorem approve_allowlist_characterization (db : DB) (k : KafkaResult)
    (adminId rid : Nat) (r : Request)
    (hfind : RequestService.get_request_by_id db rid = some r)
    (hpend : r.status = .PENDING)
    (hdet : detailsComplete r = true) :
    ((approveRoute db k adminId rid).1.isOk
        = (k.success || softFailureAllowlist k.error))
    ∧ ((k.success || softFailureAllowlist k.error) = true →
        ∃ r', RequestService.get_request_by_id (approveRoute db k adminId rid).2 rid
            = some r' ∧ r'.status = .APPROVED) := by
  have hroute := approveRoute_pending_complete db k adminId rid r hfind hpend hdet
  cases hk : (k.success || softFailureAllowlist k.error) with
  | false =>
    rw [hk] at hroute
    simp only [Bool.false_eq_true, if_false] at hroute
    constructor
    · rw [hroute]
      rfl
    · intro h
      exact absurd h (by simp)
  | true =>
    rw [hk] at hroute
    simp only [if_true] at hroute
    constructor
    · rw [hroute]
      rfl
    · intro _
      refine ⟨{ r with status := .APPROVED, admin_user_id := some adminId }, ?_, rfl⟩
      rw [hroute]
      simp only [RequestService.get_request_by_id, AuditService.log_action, updateRequest]
      exact find_req_update db.requests rid r
        { r with status := .APPROVED, admin_user_id := some adminId } hfind rfl

/-- C1 witness: approving the pending topic request with a provisioning
outcome of "already exists" (a soft failure) stores it as `APPROVED`. -/
theorem approve_allowlist_characterization_witness :
    (true || softFailureAllowlist "Topic orders.v1 already exists") = true
    ∧ ∃ r', RequestService.get_request_by_id
        (approveRoute exDB1
          { success := false, error := "Topic orders.v1 already exists" } 7 1).2 1
        = some r' ∧ r'.status = .APPROVED :=
  ⟨rfl,
    (approve_allowlist_characterization exDB1
      { success := false, error := "Topic orders.v1 already exists" } 7 1
      exPendingTopicReq rfl rfl rfl).2 rfl⟩

/-- C3: For every request in a terminal status (`APPROVED`, `REJECTED` or
`CANCELLED`), a second decision (approve or reject) fails with the 404
not-found error, and neither approve, reject nor cancel changes the
database — no field of the request changes and no audit entry is
appended. -/
theorem terminal_state_frozen (db : DB) (k : KafkaResult)
    (adminId rid userId : Nat) (reason : Option String) (r : Request)
    (hfind : RequestService.get_request_by_id db rid = some r)
    (hterm : r.status = .APPROVED ∨ r.status = .REJECTED ∨ r.status = .CANCELLED) :
    approveRoute db k adminId rid = (.error .notFound, db)
    ∧ (rejectRoute db adminId rid reason).2 = db
    ∧ (rejectRoute db adminId rid reason).1.isOk = false
    ∧ (truthy reason = true →
        rejectRoute db adminId rid reason = (.error .notFound, db))
    ∧ RequestService.cancel_request db rid userId = (none, db)
  := by
  have hne : r.status ≠ .PENDING := by
    rcases hterm with h | h | h <;> rw [h] <;> intro hx <;> exact RequestStatus.noConfusion hx
  have hrej : RequestService.reject_request db rid adminId (reason.getD "") = (none, db) := by
    unfold RequestService.reject_request
    rw [hfind]
    simp [hne]
  refine ⟨?_, ?_, ?_, ?_, ?_⟩
  · unfold approveRoute
    rw [hfind]
    simp [hne]
  · unfold rejectRoute
    cases ht : truthy reason with
    | false => rfl
    | true => simp [hrej]
  · unfold rejectRoute
    cases ht : truthy reason with
    | false => rfl
    | true => simp [hrej, Except.isOk, Except.toBool]
  · intro ht
    unfold rejectRoute
    rw [ht]
    simp [hrej]
  · unfold RequestService.cancel_request
    rw [hfind]
    simp [hne]

/-- C3 witness: a second decision on the already-approved request fails
with not-found and leaves the database — state and audit log — unchanged. -/
theorem terminal_state_frozen_witness :
    approveRoute exDBApproved { success := true, error := "" } 7 1 =
      (.error .notFound, exDBApproved)
    ∧ (rejectRoute exDBApproved 7 1 (some "duplicate decision")).2 = exDBApproved
    ∧ (rejectRoute exDBApproved 7 1 (some "duplicate decision")).1.isOk = false
    ∧ (truthy (some "duplicate decision") = true →
        rejectRoute exDBApproved 7 1 (some "duplicate decision") =
          (.error .notFound, exDBApproved))
    ∧ RequestService.cancel_request exDBApproved 1 5 = (none, exDBApproved) :=
  terminal_state_frozen exDBApproved { success := true, error := "" } 7 1 5
    (some "duplicate decision") exApprovedTopicReq rfl (Or.inl rfl)

/-- C6: For every reject decision with an empty or missing
`rejectionReason`, the operation fails with `ValidationError` (HTTP 400)
and the database — hence the request and the audit log — is unchanged. -/
theorem reject_empty_reason_fails (db : DB) (adminId rid : Nat)
    (reason : Option String) (h : truthy reason = false) :
    rejectRoute db adminId rid reason =
      (.error (.badRequest "Rejection reason is required"), db) := by
  unfold rejectRoute
  rw [h]
  rfl

/-- C6 witness: rejecting the pending topic request with an empty reason
fails and changes nothing. -/
theorem reject_empty_reason_fails_witness :
    rejectRoute exDB1 7 1 (some "") =
      (.error (.badRequest "Rejection reason is required"), exDB1) :=
  reject_empty_reason_fails exDB1 7 1 (some "") rfl

/-- C10: For every PENDING TOPIC request whose stored details payload lacks
a `topic_name` key or maps it to an empty string, the approve route fails
with a 400 validation error and leaves the database unchanged — and the
result does not depend on the provisioning outcome `k`, i.e. the failure
happens before any provisioning call matters. -/
theorem approve_missing_topic_name_fails (db : DB) (k : KafkaResult)
    (adminId rid : Nat) (r : Request)
    (hfind : RequestService.get_request_by_id db rid = some r)
    (hpend : r.status = .PENDING)
    (htype : r.request_type = .TOPIC)
    (hname : truthy r.details.topic_name = false) :
    approveRoute db k adminId rid =
      (.error (.badRequest "Topic name is required"), db) := by
  unfold approveRoute
  rw [hfind]
  simp [hpend, htype, hname]

/-- C10 witness: approving the pending topic request whose details payload
has no `topic_name` fails with the 400 error and changes nothing, for a
concrete provisioning outcome. -/
theorem approve_missing_topic_name_fails_witness :
    approveRoute exDBNoName { success := true, error := "" } 7 1 =
      (.error (.badRequest "Topic name is required"), exDBNoName) :=
  approve_missing_topic_name_fails exDBNoName { success := true, error := "" }
    7 1 exNoNameReq rfl rfl rfl rfl

/-- C2: For every PENDING request whose details pass the kind-specific
completeness check, an approve decision whose provisioning outcome is a
failure not on the soft-failure allowlist aborts the transition: the route
returns the upstream 500 error and the database is returned unchanged, so
the request remains PENDING and no `REQUEST_APPROVED` audit entry is
written. -/
theorem approve_hard_failure_aborts (db : DB) (k : KafkaResult)
    (adminId rid : Nat) (r : Request)
    (hfind : RequestService.get_request_by_id db rid = some r)
    (hpend : r.status = .PENDING)
    (hdet : detailsComplete r = true)
    (hfail : k.success = false)
    (hhard : softFailureAllowlist k.error = false) :
    approveRoute db k adminId rid =
      (.error (.upstream ("Failed to create resource in Kafka: " ++ k.error)), db) := by
  unfold approveRoute
  rw [hfind]
  cases htype : r.request_type with
  | TOPIC =>
    simp only [detailsComplete, htype] at hdet
    simp [hpend, htype, hdet, hfail, hhard]
  | ACL =>
    simp only [detailsComplete, htype, Bool.and_eq_true] at hdet
    obtain ⟨⟨⟨h1, h2⟩, h3⟩, h4⟩ := hdet
    simp [hpend, htype, h1, h2, h3, h4, hfail, hhard]

/-- C2 witness: a generic transport failure ("NoBrokersAvailable") on
approval of the pending topic request returns the upstream error and leaves
the database unchanged. -/
theorem approve_hard_failure_aborts_witness :
    approveRoute exDB1 { success := false, error := "NoBrokersAvailable" } 7 1 =
      (.error (.upstream "Failed to create resource in Kafka: NoBrokersAvailable"),
        exDB1) :=
  approve_hard_failure_aborts exDB1
    { success := false, error := "NoBrokersAvailable" } 7 1 exPendingTopicReq
    rfl rfl rfl rfl rfl

/-- C4 (evaluation of the code at the failing input): approving the pending
topic request stores a row with status `APPROVED` whose `approved_at` is
still null, and rejecting it stores status `REJECTED` with `rejected_at`
still null — the service never stamps the decision timestamps, so the
claimed invariant "approved_at is non-null iff status is APPROVED" (and its
rejected counterpart) fails on the code. -/
theorem decision_timestamps_never_stamped :
    (approveRoute exDB1 { success := true, error := "" } 7 1).1 = .ok exApprovedTopicReq
    ∧ exApprovedTopicReq.status = .APPROVED
    ∧ exApprovedTopicReq.approved_at = none
    ∧ (rejectRoute exDB1 7 1 (some "capacity limits")).1 = .ok exRejectedTopicReq
    ∧ exRejectedTopicReq.status = .REJECTED
    ∧ exRejectedTopicReq.rejected_at = none :=
  ⟨rfl, rfl, rfl, rfl, rfl, rfl⟩

/-- C5 counterexample: submitting a valid topic request while the audit
append fails yields a failed submission (storage error) — and yet the newly
created `PENDING` request IS persisted, refuting the claimed atomicity
("no new Request is persisted"). -/
theorem submit_audit_failure_counterexample :
    createTopicRequestRoute exDB0 false 5 exTopicRC =
      (.error .storage,
        { exDB0 with requests := [createdRequest exDB0 5 exTopicRC], nextId := 2 })
    ∧ (createdRequest exDB0 5 exTopicRC).status = .PENDING :=
  ⟨rfl, rfl⟩

/-- C5 amended: for every valid submission, if the audit append fails the
submission reports a storage failure but the newly created `PENDING`
request remains persisted and no audit entry is appended (the two writes
are NOT atomic); on success exactly one new `PENDING` request and one
`TOPIC_REQUEST_CREATED` / `ACL_REQUEST_CREATED` audit entry are appended. -/
theorem submit_atomicity_amended (db : DB) (userId : Nat) (rc : RequestCreateData)
    (hv : RequestCreate.valid rc = true) :
    (rc.request_type = .TOPIC →
      ((createTopicRequestRoute db false userId rc).1 = .error .storage
        ∧ (createTopicRequestRoute db false userId rc).2.requests
            = db.requests ++ [createdRequest db userId rc]
        ∧ (createTopicRequestRoute db false userId rc).2.audit_logs = db.audit_logs)
      ∧ ((createTopicRequestRoute db true userId rc).1 = .ok (createdRequest db userId rc)
        ∧ (createTopicRequestRoute db true userId rc).2.requests
            = db.requests ++ [createdRequest db userId rc]
        ∧ (createTopicRequestRoute db true userId rc).2.audit_logs
            = db.audit_logs ++
              [{ user_id := userId, action := "TOPIC_REQUEST_CREATED",
                 entity_type := "REQUEST",
                 entity_id := some (toString (createdRequest db userId rc).id) }]))
    ∧ (rc.request_type = .ACL →
      ((createACLRequestRoute db false userId rc).1 = .error .storage
        ∧ (createACLRequestRoute db false userId rc).2.requests
            = db.requests ++ [createdRequest db userId rc]
        ∧ (createACLRequestRoute db false userId rc).2.audit_logs = db.audit_logs)
      ∧ ((createACLRequestRoute db true userId rc).1 = .ok (createdRequest db userId rc)
        ∧ (createACLRequestRoute db true userId rc).2.requests
            = db.requests ++ [createdRequest db userId rc]
        ∧ (createACLRequestRoute db true userId rc).2.audit_logs
            = db.audit_logs ++
              [{ user_id := userId, action := "ACL_REQUEST_CREATED",
                 entity_type := "REQUEST",
                 entity_id := some (toString (createdRequest db userId rc).id) }]))
    ∧ (createdRequest db userId rc).status = .PENDING := by
  refine ⟨?_, ?_, rfl⟩
  · intro ht
    unfold createTopicRequestRoute
    rw [hv, ht]
    simp [RequestService.create_request, createdRequest, AuditService.log_action]
  · intro ht
    unfold createACLRequestRoute
    rw [hv, ht]
    simp [RequestService.create_request, createdRequest, AuditService.log_action]

/-- C5 witness: the amended behavior at a concrete valid topic submission
with a failing audit append. -/
theorem submit_atomicity_amended_witness :
    (createTopicRequestRoute exDB0 false 5 exTopicRC).1 = .error .storage
    ∧ (createTopicRequestRoute exDB0 false 5 exTopicRC).2.requests
        = exDB0.requests ++ [createdRequest exDB0 5 exTopicRC]
    ∧ (createTopicRequestRoute exDB0 false 5 exTopicRC).2.audit_logs
        = exDB0.audit_logs :=
  ((submit_atomicity_amended exDB0 5 exTopicRC rfl).1 rfl).1

/-- C7 counterexample: an ACL submission whose operation "FOO" is non-empty
(so the claimed validation accepts it) is rejected by the code with a
`ValidationError` and nothing persisted — the code additionally requires
enum membership of operation and resource type. -/
theorem submit_validation_counterexample :
    claimedSubmitValidation exBadOpACLRC = true
    ∧ createACLRequestRoute exDB0 true 5 exBadOpACLRC = (.error .validation, exDB0) :=
  ⟨rfl, rfl⟩

/-- The spec-worded amended validation coincides with the code's pydantic
validation. -/
theorem amended_eq_code_validation (rc : RequestCreateData) :
    amendedSubmitValidation rc = RequestCreate.valid rc := by
  obtain ⟨rt, d, rat⟩ := rc
  obtain ⟨tn, pa, rf, de, pr, op, rty, rn, hp⟩ := d
  cases rt with
  | TOPIC =>
    cases rat <;> cases tn <;> cases pa <;> cases rf <;> cases de <;>
      simp [amendedSubmitValidation, RequestCreate.valid, TopicRequestDetails.valid,
        ACLRequestDetails.valid, withinBounds, Option.all, Option.any]
  | ACL =>
    cases rat <;> cases pr <;> cases op <;> cases rty <;> cases rn <;>
      simp [amendedSubmitValidation, RequestCreate.valid, TopicRequestDetails.valid,
        ACLRequestDetails.valid, withinBounds, Option.all, Option.any]

/-- C7 amended: Submit accepts an input exactly when it passes the
kind-specific validation as the code defines it — a TOPIC payload needs a
topic name matching `[a-zA-Z0-9._-]+` of length at most 255, a partition
count in `[1,100]`, a replication factor in `[1,3]` and an optional
description of at most 500 characters; an ACL payload needs a non-empty
principal and resource-name and an operation / resource-type belonging to
the fixed enumerations; the rationale is optional with length in
`[10,1000]` when present — and any violation fails with `ValidationError`
and persists nothing. -/
theorem submit_validation_amended (db : DB) (userId : Nat) (rc : RequestCreateData) :
    ((createTopicRequestRoute db true userId rc).1.isOk = true ↔
        (amendedSubmitValidation rc = true ∧ rc.request_type = .TOPIC))
    ∧ ((createACLRequestRoute db true userId rc).1.isOk = true ↔
        (amendedSubmitValidation rc = true ∧ rc.request_type = .ACL))
    ∧ (amendedSubmitValidation rc = false →
        createTopicRequestRoute db true userId rc = (.error .validation, db)
        ∧ createACLRequestRoute db true userId rc = (.error .validation, db)) := by
  have heq := amended_eq_code_validation rc
  cases hv : RequestCreate.valid rc with
  | false =>
    have ham : amendedSubmitValidation rc = false := heq.trans hv
    unfold createTopicRequestRoute createACLRequestRoute
    rw [hv]
    simp [Except.isOk, Except.toBool, ham]
  | true =>
    have ham : amendedSubmitValidation rc = true := heq.trans hv
    refine ⟨?_, ?_, ?_⟩
    · unfold createTopicRequestRoute
      rw [hv]
      cases ht : rc.request_type <;>
        simp [ht, ham, Except.isOk, Except.toBool, RequestService.create_request]
    · unfold createACLRequestRoute
      rw [hv]
      cases ht : rc.request_type <;>
        simp [ht, ham, Except.isOk, Except.toBool, RequestService.create_request]
    · intro hcontra
      rw [ham] at hcontra
      exact Bool.noConfusion hcontra

/-- C7 witness: the valid topic submission is accepted; the enum-violating
ACL submission fails with `ValidationError` and persists nothing. -/
theorem submit_validation_amended_witness :
    (createTopicRequestRoute exDB0 true 5 exTopicRC).1.isOk = true
    ∧ createACLRequestRoute exDB0 true 5 exBadOpACLRC = (.error .validation, exDB0) :=
  ⟨(submit_validation_amended exDB0 5 exTopicRC).1.mpr ⟨rfl, rfl⟩,
   ((submit_validation_amended exDB0 5 exBadOpACLRC).2.2 rfl).2⟩

/-- C8: On every successful login of an existing user, the stored admin
flag ends up equal to the directory's current value, and a
`USER_ROLE_UPDATED` audit entry is appended exactly when the stored flag
actually changed (no audit entry when the directory value equals the
stored one). -/
theorem login_syncs_admin_from_directory (db : DB) (info : LdapUserInfo)
    (uname : String) (now : Nat) (u : UserRec)
    (hfind : UserService.get_user_by_username db uname = some u)
    (huniq : ∀ x ∈ db.users, x.id = u.id → x = u) :
    ∃ u' db1, login db (some info) uname now = (.ok u', db1)
      ∧ u'.is_admin = info.is_admin
      ∧ UserService.get_user_by_username db1 uname = some u'
      ∧ (u.is_admin = info.is_admin → db1.audit_logs = db.audit_logs)
      ∧ (u.is_admin ≠ info.is_admin →
          db1.audit_logs = db.audit_logs ++
            [{ user_id := u.id, action := "USER_ROLE_UPDATED",
               entity_type := "USER", entity_id := some (toString u.id) }]) := by
  by_cases hadm : u.is_admin = info.is_admin
  · have hlog : login db (some info) uname now =
        (.ok { u with last_login := some now },
          updateUser db { u with last_login := some now }) := by
      unfold login
      rw [hfind]
      simp [hadm]
    refine ⟨{ u with last_login := some now }, _, hlog, hadm, ?_, ?_, ?_⟩
    · simp only [UserService.get_user_by_username, updateUser]
      exact find_user_update db.users uname u { u with last_login := some now }
        hfind rfl rfl huniq
    · intro _
      rfl
    · intro hcontra
      exact absurd hadm hcontra
  · have hlog : login db (some info) uname now =
        (.ok { u with last_login := some now, is_admin := info.is_admin },
          AuditService.log_action
            (updateUser db { u with last_login := some now, is_admin := info.is_admin })
            u.id "USER_ROLE_UPDATED" "USER" (some (toString u.id))) := by
      unfold login
      rw [hfind]
      simp [hadm]
    refine ⟨{ u with last_login := some now, is_admin := info.is_admin }, _, hlog,
      rfl, ?_, ?_, ?_⟩
    · simp only [UserService.get_user_by_username, AuditService.log_action, updateUser]
      exact find_user_update db.users uname u
        { u with last_login := some now, is_admin := info.is_admin }
        hfind rfl rfl huniq
    · intro hcontra
      exact absurd hcontra hadm
    · intro _
      rfl

/-- C8 witness: bob was stored non-admin; his directory identity now
carries the admin flag; login flips the stored flag and appends exactly one
`USER_ROLE_UPDATED` audit entry. -/
theorem login_syncs_admin_from_directory_witness :
    ∃ u' db1, login exDBBob (some exBobDirInfo) "bob" 0 = (.ok u', db1)
      ∧ u'.is_admin = exBobDirInfo.is_admin
      ∧ UserService.get_user_by_username db1 "bob" = some u'
      ∧ (exBob.is_admin = exBobDirInfo.is_admin → db1.audit_logs = exDBBob.audit_logs)
      ∧ (exBob.is_admin ≠ exBobDirInfo.is_admin →
          db1.audit_logs = exDBBob.audit_logs ++
            [{ user_id := exBob.id, action := "USER_ROLE_UPDATED",
               entity_type := "USER", entity_id := some (toString exBob.id) }]) :=
  login_syncs_admin_from_directory exDBBob exBobDirInfo "bob" 0 exBob rfl
    (fun _ hx _ => List.mem_singleton.mp hx)

/-- C9 counterexample: with the directory raising an exception, the
username "Admin" — a username other than the claimed hardcoded "admin" —
also authenticates successfully through the fallback, with the admin
privilege granted. -/
theorem ldap_fallback_counterexample :
    LDAPAuthService.authenticate .ldapError "Admin" "pw" = some (adminFallback "Admin")
    ∧ (adminFallback "Admin").is_admin = true
    ∧ "Admin" ≠ "admin" :=
  ⟨rfl, rfl, by decide⟩

/-- C9 amended: when the directory raises (LDAP or general exception),
authentication succeeds — always with the admin privilege flag — exactly
for usernames whose lower-casing is "admin" paired with a non-empty
password; every other username fails. -/
theorem ldap_fallback_amended (env : DirectoryBehavior) (uname pw : String)
    (henv : env = .ldapError ∨ env = .otherError) :
    ((LDAPAuthService.authenticate env uname pw).isSome = true ↔
        (strToLower uname = "admin" ∧ pw ≠ ""))
    ∧ (∀ info, LDAPAuthService.authenticate env uname pw = some info →
        info.is_admin = true) := by
  have hres : LDAPAuthService.authenticate env uname pw =
      (if uname == "" || pw == "" then none
       else if strToLower uname == "admin" && !(pw == "") then some (adminFallback uname)
       else none) := by
    rcases henv with h | h <;> subst h <;> rfl
  rw [hres]
  by_cases hu : uname = ""
  · subst hu
    have hlow : strToLower "" = "" := rfl
    constructor
    · simp [hlow]
    · intro info hinfo
      simp at hinfo
  · by_cases hp : pw = ""
    · subst hp
      constructor
      · simp
      · intro info hinfo
        simp at hinfo
    · have h1 : (uname == "") = false := by simp [hu]
      have h2 : (pw == "") = false := by simp [hp]
      by_cases ha : strToLower uname = "admin"
      · have hab : (strToLower uname == "admin") = true := by simp [ha]
        constructor
        · simp [h1, h2, hab, ha, hp]
        · intro info hinfo
          simp [h1, h2, hab] at hinfo
          rw [← hinfo]
          rfl
      · have hab : (strToLower uname == "admin") = false := by simp [ha]
        constructor
        · simp [h1, h2, hab, ha]
        · intro info hinfo
          simp [h1, h2, hab] at hinfo

/-- C9 witness: the amended characterization at a concrete input — username
"ADMIN" (lower-casing to "admin") with a non-empty password authenticates
while the directory is down. -/
theorem ldap_fallback_amended_witness :
    (LDAPAuthService.authenticate .ldapError "ADMIN" "secret").isSome = true :=
  (ldap_fallback_amended .ldapError "ADMIN" "secret" (Or.inl rfl)).1.mpr
    ⟨rfl, by decide⟩

end ConfluentClerk
